import Mathlib

/-!
Shallow embedding of the HearLanguages hierarchical content-synchronization
engine and theorems settling the specification claims about it.

Embedded sources:
- src/hooks/useDownloader.js (current variant): `downloadCSVFiles`,
  `mapFileToAppStructure`, `downloadAndMapFile`, `downloadContentForLanguage`,
  `downloadBatch`;
- src/store/index.js (first store variant): the zustand store actions and
  queries;
- src/config/constants.js: URL builders and `MAX_CONCURRENT_DOWNLOADS`;
- the earlier downloader iteration (unnamed part 004): `downloadFile`,
  `fetchWithRetry`, `downloadWithConcurrencyLimit`, and its `DOWNLOAD_CONFIG`
  (unnamed part 008);
- the manifest utilities (unnamed part 002): `isBatchAvailable`.

JavaScript strings are modelled as Lean `String`; the string operations the
code uses (`split`, `replace` with a plain pattern, `padStart`, `substring`
up to `lastIndexOf`) are re-implemented over `List Char` so that every
definition evaluates by computation. Asynchronous effects are modelled as
explicit operation traces (lists of filesystem/network operations) and
explicit state passing; the external SHA-256 digest (expo-crypto, not part
of this repository) is a function parameter.
-/

namespace HearLang

/-! ## JavaScript string helpers -/

/-- Splitting on a one-character separator, keeping empty pieces, as
JavaScript `s.split(sep)` does. `acc` holds the reversed current piece. -/
def splitOnCharAux (sep : Char) : List Char → List Char → List (List Char)
  | [], acc => [acc.reverse]
  | c :: cs, acc =>
    if c == sep then acc.reverse :: splitOnCharAux sep cs []
    else splitOnCharAux sep cs (c :: acc)

/-- JavaScript `s.split(sep)` for a one-character separator. -/
def splitChar (sep : Char) (s : String) : List String :=
  (splitOnCharAux sep s.data []).map (fun cs => String.mk cs)

/-- Tests whether `p` occurs at the head of the second list. -/
def leadsWith : List Char → List Char → Bool
  | [], _ => true
  | _ :: _, [] => false
  | p :: ps, c :: cs => p == c && leadsWith ps cs

/-- Removes the first occurrence of `pat`; JavaScript `s.replace(pat, '')`
with a plain-string pattern replaces only the first occurrence. -/
def removeFirstOccur (pat : List Char) : List Char → List Char
  | [] => []
  | c :: cs =>
    if leadsWith pat (c :: cs) then (c :: cs).drop pat.length
    else c :: removeFirstOccur pat cs

/-- JavaScript `s.replace(pat, '')` (first occurrence only). -/
def replaceFirst (s pat : String) : String :=
  String.mk (removeFirstOccur pat.data s.data)

/-- JavaScript `s.replace(/^0+/, '')`. -/
def stripLeadingZeros (s : String) : String :=
  String.mk (s.data.dropWhile (fun c => c == '0'))

/-- JavaScript `s.padStart(n, '0')`. -/
def padStartZero (n : Nat) (s : String) : String :=
  String.mk (List.replicate (n - s.length) '0' ++ s.data)

/-- JavaScript `path.substring(0, path.lastIndexOf('/'))`: the directory part
of a path, empty when the path contains no slash (lastIndexOf returns -1 and
substring clamps it to 0). Used by `ensureDirectoryExists` and by the inline
directory computations in useDownloader.js. -/
def dirOf (p : String) : String :=
  String.mk (((p.data.reverse.dropWhile (fun c => c != '/')).drop 1).reverse)

/-! ## Constants (src/config/constants.js and the earlier constants variant,
unnamed part 008) -/

def CDN_BASE : String := "https://langappendpoint.azureedge.net"

def BLOB_BASE : String := "https://teststoreacc32.blob.core.windows.net/web"

/-- JavaScript `relativePath.replace(/^\/+/, '')` inside `buildUrl`. -/
def cleanPath (relativePath : String) : String :=
  String.mk (relativePath.data.dropWhile (fun c => c == '/'))

/-- `buildUrl` from src/config/constants.js; `dev` is the `__DEV__` build
flag selecting the blob base over the CDN base. -/
def buildUrl (dev : Bool) (relativePath : String) : String :=
  (if dev then BLOB_BASE else CDN_BASE) ++ "/" ++ cleanPath relativePath

def MAX_CONCURRENT_DOWNLOADS : Nat := 3

/-- `DOWNLOAD_CONFIG` from the earlier constants variant (unnamed part 008). -/
structure DownloadConfig where
  MAX_CONCURRENT_DOWNLOADS : Nat
  RETRY_ATTEMPTS : Nat
  RETRY_DELAY : Nat
  TIMEOUT : Nat
deriving DecidableEq

def DOWNLOAD_CONFIG : DownloadConfig :=
  { MAX_CONCURRENT_DOWNLOADS := 3, RETRY_ATTEMPTS := 3,
    RETRY_DELAY := 1000, TIMEOUT := 30000 }

/-- The `FileSystem.documentDirectory` value supplied by the device runtime
(expo-file-system, external to this repository); its concrete value is
irrelevant to every claim, it is fixed here only so that definitions stay
executable. -/
def documentDirectory : String := "doc/"

/-! ## Sync state store (src/store/index.js, first store variant) -/

/-- The zustand store state. `downloadProgress` is the spread-updated object
keyed by batch key; `downloadedBatches` is the append-only array. -/
structure StoreState where
  learningLang : Option String
  knownLang : Option String
  difficulty : String
  downloadProgress : List (String × Nat)
  downloadedBatches : List String
  availableBatches : List (String × List String)
  translitMode : String
deriving DecidableEq

def initialStore : StoreState :=
  { learningLang := none, knownLang := none, difficulty := "A1",
    downloadProgress := [], downloadedBatches := [], availableBatches := [],
    translitMode := "auto" }

/-- JavaScript object spread `{ ...m, [key]: v }`: updates the entry in place
if the key is present, otherwise appends it. -/
def assocSet (key : String) (v : Nat) (m : List (String × Nat)) :
    List (String × Nat) :=
  if m.any (fun p => p.1 == key) then
    m.map (fun p => if p.1 == key then (p.1, v) else p)
  else m ++ [(key, v)]

def setLanguagePair (learning known : String) (s : StoreState) : StoreState :=
  { s with learningLang := some learning, knownLang := some known }

def setDifficulty (level : String) (s : StoreState) : StoreState :=
  { s with difficulty := level }

def updateDownloadProgress (batchKey : String) (progress : Nat)
    (s : StoreState) : StoreState :=
  { s with downloadProgress := assocSet batchKey progress s.downloadProgress }

/-- `markBatchDownloaded`: appends to the array (`[...state.downloadedBatches,
batchKey]`), with no duplicate check. -/
def markBatchDownloaded (batchKey : String) (s : StoreState) : StoreState :=
  { s with downloadedBatches := s.downloadedBatches ++ [batchKey] }

def setAvailableBatches (batchData : List (String × List String))
    (s : StoreState) : StoreState :=
  { s with availableBatches := batchData }

def clearAllContent (s : StoreState) : StoreState :=
  { s with downloadProgress := [], downloadedBatches := [],
           availableBatches := [] }

def resetApp (_s : StoreState) : StoreState :=
  initialStore

def getBatchKey (lang difficulty batch : String) : String :=
  lang ++ "_" ++ difficulty ++ "_" ++ batch

/-- `isBatchDownloaded`: pure membership of the three-part key in the
recorded array — this query never inspects the filesystem. -/
def isBatchDownloaded (lang difficulty batch : String) (s : StoreState) :
    Bool :=
  s.downloadedBatches.contains (getBatchKey lang difficulty batch)

/-- `getDownloadProgress`: `downloadProgress[batchKey] || 0`. -/
def getDownloadProgress (lang difficulty batch : String) (s : StoreState) :
    Nat :=
  (s.downloadProgress.lookup (getBatchKey lang difficulty batch)).getD 0

/-- `hasAnyDownloadedContent`: `downloadedBatches.length > 0`. -/
def hasAnyDownloadedContent (s : StoreState) : Bool :=
  !s.downloadedBatches.isEmpty

/-- `getDownloadedBatchesForDifficulty`: filters the recorded keys by
destructuring `batchKey.split('_')` into `[lang, diff, batch]` and comparing
against the current language pair. -/
def getDownloadedBatchesForDifficulty (difficulty : String) (s : StoreState) :
    List String :=
  s.downloadedBatches.filter fun batchKey =>
    match splitChar '_' batchKey with
    | lng :: diff :: _ =>
        diff == difficulty &&
          (s.learningLang == some lng || s.knownLang == some lng)
    | _ => false

/-- The store actions named by claim C10, as data so that arbitrary call
sequences can be quantified over. -/
inductive StoreAction where
  | setLanguagePair (learning known : String)
  | setDifficulty (level : String)
  | updateDownloadProgress (batchKey : String) (progress : Nat)
  | markBatchDownloaded (batchKey : String)
  | setAvailableBatches (batchData : List (String × List String))
deriving DecidableEq

def applyAction (a : StoreAction) (s : StoreState) : StoreState :=
  match a with
  | .setLanguagePair l k => setLanguagePair l k s
  | .setDifficulty d => setDifficulty d s
  | .updateDownloadProgress k p => updateDownloadProgress k p s
  | .markBatchDownloaded k => markBatchDownloaded k s
  | .setAvailableBatches b => setAvailableBatches b s

def applyActions (acts : List StoreAction) (s : StoreState) : StoreState :=
  acts.foldl (fun st a => applyAction a st) s

/-! ## Batch completion decision (`downloadBatch`, useDownloader.js lines
397-432) -/

/-- Number of per-file successes (`completed` in the source). -/
def successCount (outcomes : List Bool) : Nat :=
  (outcomes.filter (fun b => b)).length

/-- Number of per-file failures (`errors.length` in the source). -/
def failureCount (outcomes : List Bool) : Nat :=
  (outcomes.filter (fun b => !b)).length

inductive BatchOutcome where
  | marked
  | failed
deriving DecidableEq

/-- The completion decision of the legacy `downloadBatch`: it throws when the
aggregated file list is empty (line 397-399) and otherwise marks the batch
downloaded iff `successCount > totalFiles * 0.8` (line 428). The JavaScript
comparison is computed in binary floating point; over the concrete sizes used
in the theorems below (5 and 10 files) `totalFiles * 0.8` is exact, so the
comparison coincides with the rational form `5 * success > 4 * total` used
here. `outcomes` lists the per-file download results in order. -/
def downloadBatch (outcomes : List Bool) : BatchOutcome :=
  if outcomes.length = 0 then .failed
  else if 5 * successCount outcomes > 4 * outcomes.length then .marked
  else .failed

/-- The same run including its store writes: `updateDownloadProgress(batch, 0)`
before the loop (line 405), `markBatchDownloaded(batch)` on success (line
429), and `updateDownloadProgress(batch, 0)` again in the catch block (line
435). Note the success path never writes progress 100. -/
def downloadBatchStore (outcomes : List Bool) (batchKey : String)
    (s : StoreState) : StoreState :=
  if outcomes.length = 0 then updateDownloadProgress batchKey 0 s
  else
    let s1 := updateDownloadProgress batchKey 0 s
    if 5 * successCount outcomes > 4 * outcomes.length then
      markBatchDownloaded batchKey s1
    else updateDownloadProgress batchKey 0 s1

/-! ## Path mapper (`mapFileToAppStructure`, useDownloader.js lines 214-246) -/

/-- A `files` entry of a batch manifest: `{ path, bytes, sha256 }` (sha256
optional). -/
structure FileEntry where
  path : String
  bytes : Option Nat
  sha256 : Option String
deriving DecidableEq

/-- `convertBatchToAppFormat`:
`batch.replace('batch', '').replace(/^0+/, '').padStart(2, '0')`. -/
def convertBatchToAppFormat (batch : String) : String :=
  padStartZero 2 (stripLeadingZeros (replaceFirst batch "batch"))

/-- `mapFileToAppStructure(file, batch)`. The result is `none` exactly where
the JavaScript throws a TypeError (calling `.replace` on an undefined array
element); an undefined element interpolated into a template literal renders
as the string `undefined`, which `Option.getD` reproduces. The `batch`
parameter is accepted but never read, as in the source. -/
def mapFileToAppStructure (file : FileEntry) (batch : String) : Option String :=
  let parts := splitChar '/' file.path
  match parts.get? 3 with
  | none => none
  | some batchNum =>
    let language := (parts.get? 1).getD "undefined"
    let difficulty := (parts.get? 2).getD "undefined"
    let appBatchName := "batch" ++ convertBatchToAppFormat batchNum
    match parts.get? 5 with
    | none => some file.path
    | some contentType =>
      if contentType = "sentences" then
        match parts.get? 6 with
        | none => none
        | some filename =>
          some ("sentences/" ++ appBatchName ++ "/" ++
            replaceFirst filename ".mp3" ++ "/" ++ difficulty ++ "/" ++
            language ++ ".mp3")
      else if contentType = "words" then
        some ("words/" ++ language ++ "/" ++ (parts.get? 6).getD "undefined")
      else if contentType = "pictures" then
        match parts.get? 6 with
        | none => none
        | some filename =>
          some ("pictures/" ++ appBatchName ++ "/" ++
            replaceFirst filename ".mp3" ++ "/" ++ difficulty ++ "/" ++
            language ++ ".mp3")
      else some file.path

/-! ## Filesystem/network operation traces -/

/-- One observable filesystem or transfer operation. `downloadTo` is
`FileSystem.downloadAsync(url, dest)`, which streams the response body
directly into `dest`. -/
inductive FsOp where
  | makeDir (dir : String)
  | downloadTo (url dest : String)
  | getInfo (p : String)
  | readFile (p : String)
  | hashCheck (p : String)
  | rename (src dst : String)
deriving DecidableEq

def FsOp.isRename : FsOp → Bool
  | .rename _ _ => true
  | _ => false

def FsOp.isHashCheck : FsOp → Bool
  | .hashCheck _ => true
  | _ => false

def FsOp.isDownload : FsOp → Bool
  | .downloadTo _ _ => true
  | _ => false

/-- Operation trace of `downloadAndMapFile(file, batch)` (useDownloader.js
lines 248-280): build the remote URL, map the path, create the directory,
download straight into the final local path, then check the result exists.
`status` is the HTTP status returned by `downloadAsync`; on a non-200 status
the function throws after the transfer, so the trace stops before `getInfo`.
The result is `none` when `mapFileToAppStructure` throws. -/
def downloadAndMapFileTrace (dev : Bool) (status : Nat) (file : FileEntry)
    (batch : String) : Option (List FsOp) :=
  (mapFileToAppStructure file batch).map fun mappedPath =>
    let localPath := documentDirectory ++ mappedPath
    let ops := [FsOp.makeDir (dirOf localPath),
                FsOp.downloadTo (buildUrl dev file.path) localPath]
    if status = 200 then ops ++ [FsOp.getInfo localPath] else ops

/-- `downloadFile` from the earlier downloader iteration (unnamed part 004,
lines 123-154): ensure the directory, download straight into `localPath`,
and, when `expectedSha256` is supplied, read the file back, hash it and throw
on mismatch. `hash` is the external SHA-256 hex digest; `fetched` is the byte
content the transfer produced. The `Bool` is `false` exactly when the
function throws; there is no retry of any kind inside it. -/
def downloadFile (hash : String → String) (fetched : String)
    (remoteUrl localPath : String) (expectedSha256 : Option String) :
    List FsOp × Bool :=
  let ops := [FsOp.makeDir (dirOf localPath),
              FsOp.downloadTo remoteUrl localPath]
  match expectedSha256 with
  | none => (ops, true)
  | some expected =>
    let ops2 := ops ++ [FsOp.readFile localPath, FsOp.hashCheck localPath]
    if hash fetched == expected then (ops2, true) else (ops2, false)

/-- Number of transfer operations in a trace. -/
def fetchCount (ops : List FsOp) : Nat :=
  (ops.filter FsOp.isDownload).length

/-- `downloadLanguagePack` (unnamed part 004) awaits all its file downloads
through `Promise.all`; one rejected file download makes the pack return
`false`, so the pack succeeds iff every file result is a success. -/
def downloadLanguagePackOk (results : List Bool) : Bool :=
  results.all (fun r => r)

/-! ## Retry policy (`fetchWithRetry`, unnamed part 004 lines 159-183) -/

/-- Observable result of a `fetchWithRetry` run: the delays actually waited
(in ms), the number of fetch attempts made, and whether a response was
returned. -/
structure FetchTrace where
  delays : List Nat
  attemptsMade : Nat
  ok : Bool
deriving DecidableEq

/-- The loop body of `fetchWithRetry`: `outcomes` gives the success of each
potential attempt in order, `i` is the current 0-based attempt index. After a
failed non-final attempt the code waits `RETRY_DELAY * (i + 1)` milliseconds
(line 180) before retrying; a failed final attempt rethrows with no wait. -/
def fetchWithRetryRun (base : Nat) : Nat → List Bool → FetchTrace
  | _, [] => { delays := [], attemptsMade := 0, ok := false }
  | i, ok :: rest =>
    if ok then { delays := [], attemptsMade := 1, ok := true }
    else
      match rest with
      | [] => { delays := [], attemptsMade := 1, ok := false }
      | r :: rs =>
        let t := fetchWithRetryRun base (i + 1) (r :: rs)
        { delays := base * (i + 1) :: t.delays,
          attemptsMade := t.attemptsMade + 1, ok := t.ok }

/-- `fetchWithRetry(url, attempts)` with an explicit attempts budget. -/
def fetchWithRetryCall (attempts : Nat) (outcomes : List Bool) : FetchTrace :=
  fetchWithRetryRun DOWNLOAD_CONFIG.RETRY_DELAY 0 (outcomes.take attempts)

/-- `fetchWithRetry(url)` with the default budget
`DOWNLOAD_CONFIG.RETRY_ATTEMPTS`. -/
def fetchWithRetry (outcomes : List Bool) : FetchTrace :=
  fetchWithRetryCall DOWNLOAD_CONFIG.RETRY_ATTEMPTS outcomes

/-! ## Concurrency scheduler (chunked loops in `downloadContentForLanguage`
lines 336-347 and `downloadBatch` lines 407-423) -/

/-- The slicing loop `for (i = 0; i < n; i += w) slice(i, i + w)`, with fuel
equal to the list length (each iteration with `w > 0` consumes at least one
element; `w = 0` never occurs, the worker limit is the constant 3). -/
def chunkedAux {α : Type} (w : Nat) : Nat → List α → List (List α)
  | 0, _ => []
  | _, [] => []
  | fuel + 1, x :: xs =>
    if w = 0 then []
    else ((x :: xs).take w) :: chunkedAux w fuel (xs.drop (w - 1))

/-- The chunks awaited one `Promise.allSettled` group at a time. -/
def chunked {α : Type} (w : Nat) (xs : List α) : List (List α) :=
  chunkedAux w xs.length xs

/-- Maximum number of simultaneously in-flight single-file downloads during a
chunked batch run: each `Promise.allSettled` group is awaited before the next
chunk starts, so the in-flight set at any instant is a subset of the current
chunk. -/
def maxInFlight (w : Nat) (files : List FileEntry) : Nat :=
  ((chunked w files).map List.length).foldr max 0

/-! ## Manifest tiers, local availability, and the synchronization run -/

abbrev Disk := List (String × String)

/-- `FileSystem.getInfoAsync(p).exists`. -/
def fileExists (d : Disk) (p : String) : Bool :=
  (d.lookup p).isSome

/-- A batch manifest (`{ files: [...] }`). -/
structure BatchManifest where
  files : List FileEntry
deriving DecidableEq

/-- `isBatchAvailable` (unnamed part 002 lines 216-241): false when the local
batch manifest is missing, otherwise true iff every manifest file exists at
`documentDirectory + path`. It checks existence only; the `sha256` fields are
never consulted. -/
def isBatchAvailable (manifest : Option BatchManifest) (d : Disk) : Bool :=
  match manifest with
  | none => false
  | some m => m.files.all (fun f => fileExists d (documentDirectory ++ f.path))

/-- Predicate following the specification wording of claim C2: complete iff
every file exists at its mapped path and, when a sha256 is present, the
stored content hashes to it. Written from the spec for comparison with
`isBatchAvailable`; `hash` stands for the external SHA-256 digest. -/
def specComplete (hash : String → String) (m : BatchManifest) (d : Disk) :
    Bool :=
  m.files.all fun f =>
    match d.lookup (documentDirectory ++ f.path), f.sha256 with
    | none, _ => false
    | some _, none => true
    | some c, some s => hash c == s

structure LangInfo where
  code : String
  difficulties : List String
deriving DecidableEq

structure RootManifest where
  languages : List LangInfo
deriving DecidableEq

structure ContentTypeInfo where
  batches : List String
deriving DecidableEq

structure DifficultyInfo where
  sentences : Option ContentTypeInfo
  words : Option ContentTypeInfo
  pictures : Option ContentTypeInfo
deriving DecidableEq

structure LanguageManifest where
  difficulties : List (String × DifficultyInfo)
deriving DecidableEq

/-- The in-memory fields of `HierarchicalContentDownloader` (useDownloader.js
lines 9-16): all four caches are session-local and are lost when the object
is recreated. -/
structure DownloaderState where
  rootManifest : Option RootManifest
  languageManifests : List (String × LanguageManifest)
  downloadedBatches : List String
  downloadedCSVs : List String
deriving DecidableEq

/-- The state of a freshly constructed downloader. -/
def initialDownloader : DownloaderState :=
  { rootManifest := none, languageManifests := [], downloadedBatches := [],
    downloadedCSVs := [] }

/-- The remote origin: the data each manifest URL would return. Batch
manifests are keyed by the `{difficulty}_{contentType}_{lang}_{batch}`
identifier used in their URL. -/
structure Server where
  root : RootManifest
  langManifests : List (String × LanguageManifest)
  batchManifests : List (String × BatchManifest)
deriving DecidableEq

/-- One network request issued during a synchronization run. -/
inductive Request where
  | rootManifest
  | csv (name : String)
  | langManifest (lang : String)
  | batchManifest (batchId : String)
  | file (path : String)
deriving DecidableEq

def Request.isFile : Request → Bool
  | .file _ => true
  | _ => false

/-- The three fixed CSV file names of `downloadCSVFiles` (useDownloader.js
lines 22-38). -/
def csvNames : List String :=
  ["sentences_batch01_v1.csv", "words_v1.csv", "pictures_batch01_v1.csv"]

def contentTypes : List String :=
  ["sentences", "words", "pictures"]

/-- `difficultyInfo[contentType]` lookup for the three content types iterated
by `downloadContentForLanguage`. -/
def contentTypeInfo (d : DifficultyInfo) (ct : String) :
    Option ContentTypeInfo :=
  if ct = "sentences" then d.sentences
  else if ct = "words" then d.words
  else if ct = "pictures" then d.pictures
  else none

/-- Batches listed for a content type (empty when the content type is absent
from the difficulty info). -/
def batchesOf (d : DifficultyInfo) (ct : String) : List String :=
  ((contentTypeInfo d ct).map ContentTypeInfo.batches).getD []

/-- The per-file loop of `downloadCSVFiles` (lines 44-74): each CSV is
skipped when its `{lang}_{difficulty}_{name}` key is already in the
session-local `downloadedCSVs` set, otherwise it is fetched and, the download
succeeding, its key is recorded. -/
def csvRequestsAux (lang diff : String) :
    List String → DownloaderState → List Request × DownloaderState
  | [], st => ([], st)
  | name :: rest, st =>
    let key := lang ++ "_" ++ diff ++ "_" ++ name
    if st.downloadedCSVs.contains key then csvRequestsAux lang diff rest st
    else
      let st2 := { st with downloadedCSVs := st.downloadedCSVs ++ [key] }
      let r := csvRequestsAux lang diff rest st2
      (Request.csv name :: r.1, r.2)

/-- `downloadCSVFiles(lang, difficulty)` over the three fixed CSV names. -/
def downloadCSVFiles (lang diff : String) (st : DownloaderState) :
    List Request × DownloaderState :=
  csvRequestsAux lang diff csvNames st

/-- The body of the per-batch loop of `downloadContentForLanguage` (lines
328-354): the skip check against the session-local `downloadedBatches` set
(line 331) precedes the batch-manifest fetch; when the manifest fetch fails
the error is caught and the batch is left unmarked; otherwise every listed
file is requested (per-file errors are caught and swallowed, line 342-344)
and the batch is recorded as downloaded unconditionally (lines 348-350). -/
def processBatch (server : Server) (lang diff ct batch : String)
    (st : DownloaderState) : List Request × DownloaderState :=
  let skipKey := lang ++ "_" ++ diff ++ "_" ++ ct ++ "_" ++ batch
  let manifestId := diff ++ "_" ++ ct ++ "_" ++ lang ++ "_" ++ batch
  if st.downloadedBatches.contains skipKey then ([], st)
  else
    match server.batchManifests.lookup manifestId with
    | none => ([Request.batchManifest manifestId], st)
    | some bm =>
      (Request.batchManifest manifestId ::
         bm.files.map (fun f => Request.file f.path),
       { st with downloadedBatches := st.downloadedBatches ++ [skipKey] })

def processBatches (server : Server) (lang diff ct : String) :
    List String → DownloaderState → List Request × DownloaderState
  | [], st => ([], st)
  | b :: bs, st =>
    let r1 := processBatch server lang diff ct b st
    let r2 := processBatches server lang diff ct bs r1.2
    (r1.1 ++ r2.1, r2.2)

/-- The content-type loop of `downloadContentForLanguage` (lines 324-356). -/
def processContentTypes (server : Server) (lang diff : String)
    (dinfo : DifficultyInfo) :
    List String → DownloaderState → List Request × DownloaderState
  | [], st => ([], st)
  | ct :: cts, st =>
    match contentTypeInfo dinfo ct with
    | none => processContentTypes server lang diff dinfo cts st
    | some cti =>
      let r1 := processBatches server lang diff ct cti.batches st
      let r2 := processContentTypes server lang diff dinfo cts r1.2
      (r1.1 ++ r2.1, r2.2)

/-- Continuation of the run once the language manifest is in hand (lines
319-356): resolve the difficulty info (aborting when absent) and drain the
content types. -/
def processAfterManifest (server : Server) (st : DownloaderState)
    (lang diff : String) (lm : LanguageManifest) (acc : List Request) :
    List Request × DownloaderState × Bool :=
  match lm.difficulties.lookup diff with
  | none => (acc, st, false)
  | some dinfo =>
    let r := processContentTypes server lang diff dinfo contentTypes st
    (acc ++ r.1, r.2, true)

/-- The single-language body of `downloadContentForLanguage` (lines 296-357),
as the list of network requests it issues together with the resulting
downloader state and whether it ran to completion. Fetches that the model
performs are assumed to succeed (the claims settled with it concern which
requests are issued, not transport failures). Order of the source: cached
root manifest check, availability check against it, CSV downloads, cached
language-manifest check, then the batch loops. -/
def syncLang (server : Server) (st : DownloaderState) (lang diff : String) :
    List Request × DownloaderState × Bool :=
  let step1 : List Request × DownloaderState × RootManifest :=
    match st.rootManifest with
    | some m => ([], st, m)
    | none =>
      ([Request.rootManifest], { st with rootManifest := some server.root },
       server.root)
  let r1 := step1.1
  let st1 := step1.2.1
  let rm := step1.2.2
  match rm.languages.find? (fun l => l.code == lang) with
  | none => (r1, st1, false)
  | some info =>
    if info.difficulties.contains diff then
      let step2 := downloadCSVFiles lang diff st1
      let r2 := step2.1
      let st2 := step2.2
      match st2.languageManifests.lookup lang with
      | some lm => processAfterManifest server st2 lang diff lm (r1 ++ r2)
      | none =>
        match server.langManifests.lookup lang with
        | none => (r1 ++ r2 ++ [Request.langManifest lang], st2, false)
        | some lm =>
          let st3 := { st2 with
            languageManifests := st2.languageManifests ++ [(lang, lm)] }
          processAfterManifest server st3 lang diff lm
            (r1 ++ r2 ++ [Request.langManifest lang])
    else (r1, st1, false)

/-! ## Concrete data used by counterexamples and witnesses -/

def dinfoC7 : DifficultyInfo :=
  { sentences := some { batches := ["batch001"] }, words := none,
    pictures := none }

def lmC7 : LanguageManifest :=
  { difficulties := [("A1", dinfoC7)] }

def serverC7 : Server :=
  { root := { languages := [{ code := "en", difficulties := ["A1"] }] },
    langManifests := [("en", lmC7)],
    batchManifests :=
      [("A1_sentences_en_batch001",
        { files :=
            [⟨"languages/en/A1/batch001/audio/sentences/sent_001.mp3",
              none, none⟩] })] }

/-- A downloader state as left behind by a fully successful `syncLang` run of
`serverC7` for ("en", "A1"): all session caches warm. -/
def warmDownloader : DownloaderState :=
  { rootManifest := some serverC7.root,
    languageManifests := [("en", lmC7)],
    downloadedBatches := ["en_A1_sentences_batch001"],
    downloadedCSVs := ["en_A1_sentences_batch01_v1.csv", "en_A1_words_v1.csv",
                       "en_A1_pictures_batch01_v1.csv"] }

/-- A server holding one batch manifest with an empty `files` list. -/
def serverC8 : Server :=
  { root := { languages := [{ code := "en", difficulties := ["A1"] }] },
    langManifests := [("en", lmC7)],
    batchManifests := [("A1_words_en_batch001", { files := [] })] }

/-- A ten-file batch manifest, as used by the claim C2 counterexample. -/
def manifestTen : BatchManifest :=
  { files := (List.range 10).map fun i =>
      { path := "f" ++ padStartZero 1 (Nat.repr i) ++ ".mp3", bytes := none,
        sha256 := none } }

/-- A disk holding only the first nine of the ten files of `manifestTen`. -/
def diskNine : Disk :=
  (List.range 9).map fun i =>
    (documentDirectory ++ "f" ++ padStartZero 1 (Nat.repr i) ++ ".mp3",
     "bytes")

/-! ## Helper lemmas -/

theorem contains_true_iff {α : Type _} [BEq α] [LawfulBEq α] (l : List α)
    (a : α) : l.contains a = true ↔ a ∈ l := by
  show List.elem a l = true ↔ a ∈ l
  exact List.elem_iff

theorem succ_add_fail (xs : List Bool) :
    successCount xs + failureCount xs = xs.length := by
  induction xs with
  | nil => rfl
  | cons b bs ih =>
    cases b <;> simp [successCount, failureCount, List.filter_cons] at ih ⊢ <;>
      omega

theorem applyAction_keeps_downloaded (a : StoreAction) (l d b : String)
    (s : StoreState) (h : isBatchDownloaded l d b s = true) :
    isBatchDownloaded l d b (applyAction a s) = true := by
  cases a with
  | setLanguagePair x y => exact h
  | setDifficulty x => exact h
  | updateDownloadProgress k p => exact h
  | markBatchDownloaded k =>
    simp only [isBatchDownloaded, markBatchDownloaded] at h ⊢
    rw [contains_true_iff] at h ⊢
    exact List.mem_append_left _ h
  | setAvailableBatches bd => exact h

/-! ## Claim C1 -/

/-- C1 counterexample: a ten-file run in which nine files succeed and one
fails is nevertheless marked downloaded by `downloadBatch` (9 > 10 × 0.8),
so a failed file does not mark the batch Failed as the claim states. -/
theorem downloadBatch_marks_with_failed_file :
    downloadBatch (List.replicate 9 true ++ [false]) = BatchOutcome.marked ∧
    (List.replicate 9 true ++ [false]).contains false = true := by
  decide

/-- C1 (amended): `downloadBatch` marks the batch downloaded iff the file
list is non-empty and strictly fewer than one fifth of the files failed
(`successCount > totalFiles * 0.8`); all-or-nothing completion is not what
the code implements. -/
theorem downloadBatch_marks_iff_over_eighty_percent (outcomes : List Bool) :
    downloadBatch outcomes = BatchOutcome.marked ↔
      outcomes ≠ [] ∧ 5 * failureCount outcomes < outcomes.length := by
  have h := succ_add_fail outcomes
  unfold downloadBatch
  by_cases h0 : outcomes.length = 0
  · have he : outcomes = [] := List.length_eq_zero.mp h0
    subst he
    simp
  · have hne : outcomes ≠ [] := fun he => h0 (by simp [he])
    rw [if_neg h0]
    by_cases hgt : 5 * successCount outcomes > 4 * outcomes.length
    · rw [if_pos hgt]
      exact ⟨fun _ => ⟨hne, by omega⟩, fun _ => rfl⟩
    · rw [if_neg hgt]
      constructor
      · intro hcon
        cases hcon
      · rintro ⟨-, hlt⟩
        exfalso
        omega

/-! ## Claim C10 -/

/-- C10 counterexample: a repeated `markBatchDownloaded` of the same key does
change a query result — `getDownloadedBatchesForDifficulty` returns the
duplicated entry twice. -/
theorem duplicate_mark_changes_difficulty_query :
    getDownloadedBatchesForDifficulty "A1"
        (markBatchDownloaded "en_A1_batch01"
          (markBatchDownloaded "en_A1_batch01"
            (setLanguagePair "en" "zh" initialStore))) ≠
      getDownloadedBatchesForDifficulty "A1"
        (markBatchDownloaded "en_A1_batch01"
          (setLanguagePair "en" "zh" initialStore)) := by
  decide

/-- C10 (amended): once `markBatchDownloaded(getBatchKey l d b)` has run,
`isBatchDownloaded l d b` is true and stays true under any sequence of
`setLanguagePair`, `setDifficulty`, `updateDownloadProgress`,
`markBatchDownloaded`, `setAvailableBatches`; `clearAllContent` and
`resetApp` make it false; and a duplicate `markBatchDownloaded` of an
already-recorded key leaves `isBatchDownloaded`, `getDownloadProgress` and
`hasAnyDownloadedContent` unchanged (though it appends a duplicate list
entry, which `getDownloadedBatchesForDifficulty` exposes). -/
theorem store_monotonic_downloaded :
    (∀ (l d b : String) (s : StoreState),
        isBatchDownloaded l d b
          (markBatchDownloaded (getBatchKey l d b) s) = true) ∧
    (∀ (l d b : String) (acts : List StoreAction) (s : StoreState),
        isBatchDownloaded l d b s = true →
        isBatchDownloaded l d b (applyActions acts s) = true) ∧
    (∀ (l d b : String) (s : StoreState),
        isBatchDownloaded l d b (clearAllContent s) = false ∧
        isBatchDownloaded l d b (resetApp s) = false) ∧
    (∀ (k : String) (s : StoreState), k ∈ s.downloadedBatches →
        (∀ l d b, isBatchDownloaded l d b (markBatchDownloaded k s) =
            isBatchDownloaded l d b s) ∧
        (∀ l d b, getDownloadProgress l d b (markBatchDownloaded k s) =
            getDownloadProgress l d b s) ∧
        hasAnyDownloadedContent (markBatchDownloaded k s) =
          hasAnyDownloadedContent s) := by
  refine ⟨?_, ?_, ?_, ?_⟩
  · intro l d b s
    unfold isBatchDownloaded markBatchDownloaded
    rw [contains_true_iff]
    exact List.mem_append_right _ (List.mem_singleton.mpr rfl)
  · intro l d b acts
    induction acts with
    | nil => exact fun s h => h
    | cons a as ih =>
      intro s h
      have h2 : applyActions (a :: as) s = applyActions as (applyAction a s) :=
        rfl
      rw [h2]
      exact ih _ (applyAction_keeps_downloaded a l d b s h)
  · intro l d b s
    exact ⟨rfl, rfl⟩
  · intro k s hk
    refine ⟨?_, fun l d b => rfl, ?_⟩
    · intro l d b
      unfold isBatchDownloaded markBatchDownloaded
      rw [Bool.eq_iff_iff, contains_true_iff, contains_true_iff]
      simp only [List.mem_append, List.mem_singleton]
      constructor
      · rintro (hm | hm)
        · exact hm
        · exact hm ▸ hk
      · exact Or.inl
    · have hne : s.downloadedBatches ≠ [] := List.ne_nil_of_mem hk
      unfold hasAnyDownloadedContent markBatchDownloaded
      cases hd : s.downloadedBatches with
      | nil => exact absurd hd hne
      | cons x xs => rfl

/-- Witness for the C10 theorem: a concrete mark survives a concrete action
sequence, and a concrete duplicate mark leaves `hasAnyDownloadedContent`
unchanged. -/
theorem store_monotonic_downloaded_witness :
    isBatchDownloaded "en" "A1" "batch01"
        (applyActions
          [StoreAction.setDifficulty "B1",
           StoreAction.updateDownloadProgress "k" 50,
           StoreAction.markBatchDownloaded "other",
           StoreAction.setAvailableBatches []]
          (markBatchDownloaded (getBatchKey "en" "A1" "batch01")
            initialStore)) = true ∧
    hasAnyDownloadedContent
        (markBatchDownloaded "en_A1_batch01"
          (markBatchDownloaded "en_A1_batch01" initialStore)) =
      hasAnyDownloadedContent
        (markBatchDownloaded "en_A1_batch01" initialStore) :=
  ⟨store_monotonic_downloaded.2.1 "en" "A1" "batch01" _ _ (by decide),
   (store_monotonic_downloaded.2.2.2 "en_A1_batch01" _ (by decide)).2.2⟩

/-! ## Claim C2 -/

/-- C2 counterexample: the reported completeness can disagree with the disk.
With the ten-file `manifestTen` and a disk holding only nine of its files,
the legacy `downloadBatch` run whose tenth file failed still records its key
as downloaded, the store query built from `markBatchDownloaded` (as the
earlier downloader's `downloadBatch` performs on success, after which the
files can be deleted by its `clearAllContent`, which never resets the store)
reports true, yet even the code's own existence check `isBatchAvailable` is
false — and a fortiori the claimed existence-plus-hash characterisation
fails. -/
theorem isBatchDownloaded_true_with_missing_file :
    (downloadBatchStore (List.replicate 9 true ++ [false]) "batch01"
        initialStore).downloadedBatches.contains "batch01" = true ∧
    isBatchDownloaded "en" "A1" "batch01"
        (markBatchDownloaded (getBatchKey "en" "A1" "batch01")
          initialStore) = true ∧
    isBatchAvailable (some manifestTen) diskNine = false := by
  decide

/-- C2 (amended): `isBatchDownloaded` is a pure membership query on the
recorded key list and reads nothing from disk (its result depends only on
`downloadedBatches`), and `isBatchAvailable` is true iff every manifest file
exists at `documentDirectory + path` — existence only, so its result is
invariant under changing the `sha256` (and `bytes`) fields of the manifest
and it never verifies checksums. -/
theorem isBatchAvailable_checks_existence_only :
    (∀ (files1 files2 : List FileEntry) (d : Disk),
        files1.map FileEntry.path = files2.map FileEntry.path →
        isBatchAvailable (some { files := files1 }) d =
          isBatchAvailable (some { files := files2 }) d) ∧
    (∀ (m : BatchManifest) (d : Disk),
        isBatchAvailable (some m) d = true ↔
          ∀ f ∈ m.files, fileExists d (documentDirectory ++ f.path) = true) ∧
    (∀ (l dif b : String) (s1 s2 : StoreState),
        s1.downloadedBatches = s2.downloadedBatches →
        isBatchDownloaded l dif b s1 = isBatchDownloaded l dif b s2) := by
  refine ⟨?_, ?_, ?_⟩
  · intro files1
    induction files1 with
    | nil =>
      intro files2 d h
      have h2 : files2 = [] := by
        cases files2 with
        | nil => rfl
        | cons g gs => simp at h
      subst h2
      rfl
    | cons f fs ih =>
      intro files2 d h
      cases files2 with
      | nil => simp at h
      | cons g gs =>
        simp only [List.map_cons, List.cons.injEq] at h
        obtain ⟨hp, hrest⟩ := h
        have ihr := ih gs d hrest
        simp only [isBatchAvailable, List.all_cons] at ihr ⊢
        rw [hp, ihr]
  · intro m d
    simp [isBatchAvailable, List.all_eq_true]
  · intro l dif b s1 s2 h
    simp only [isBatchDownloaded, h]

/-- Witness for the C2 theorem at concrete inputs: two one-file manifests
differing only in their sha256 fields get the same availability verdict, and
the iff instantiates at `manifestTen` and `diskNine`. -/
theorem isBatchAvailable_checks_existence_only_witness :
    isBatchAvailable
        (some { files := [⟨"f0.mp3", none, some "aaaa"⟩] }) diskNine =
      isBatchAvailable
        (some { files := [⟨"f0.mp3", some 7, some "bbbb"⟩] }) diskNine ∧
    (isBatchAvailable (some manifestTen) diskNine = true ↔
      ∀ f ∈ manifestTen.files,
        fileExists diskNine (documentDirectory ++ f.path) = true) :=
  ⟨isBatchAvailable_checks_existence_only.1 _ _ diskNine rfl,
   isBatchAvailable_checks_existence_only.2.1 manifestTen diskNine⟩

/-! ## Claim C3 -/

/-- C3 counterexample: for a concrete sentences file, `downloadAndMapFile`
streams the response body directly into the final mapped destination (a
single `downloadTo` whose target is the final path, preceded only by the
directory creation) — there is no temporary path, no rename, and no checksum
operation, so a partially written file is observable at the final path during
the transfer. -/
theorem downloadAndMapFile_writes_final_path_directly :
    downloadAndMapFileTrace false 200
        ⟨"languages/en/B1/batch001/audio/sentences/sent_501.mp3", none, none⟩
        "batch01" =
      some [FsOp.makeDir
              (dirOf (documentDirectory ++
                "sentences/batch01/sent_501/B1/en.mp3")),
            FsOp.downloadTo
              (buildUrl false
                "languages/en/B1/batch001/audio/sentences/sent_501.mp3")
              (documentDirectory ++ "sentences/batch01/sent_501/B1/en.mp3"),
            FsOp.getInfo
              (documentDirectory ++
                "sentences/batch01/sent_501/B1/en.mp3")] ∧
    ((downloadAndMapFileTrace false 200
        ⟨"languages/en/B1/batch001/audio/sentences/sent_501.mp3", none, none⟩
        "batch01").getD []).all
      (fun op => !op.isRename && !op.isHashCheck) = true := by
  decide

/-- C3 (amended): whenever the path mapping succeeds, the trace of
`downloadAndMapFile` contains a `downloadTo` whose destination is the final
local path itself, and contains no rename and no checksum operation: the
download is written directly at its final name rather than to a temporary
path that is verified and atomically renamed. -/
theorem downloadAndMapFile_trace_no_rename (dev : Bool) (status : Nat)
    (file : FileEntry) (batch mp : String)
    (h : mapFileToAppStructure file batch = some mp) :
    ∃ ops, downloadAndMapFileTrace dev status file batch = some ops ∧
      FsOp.downloadTo (buildUrl dev file.path) (documentDirectory ++ mp) ∈
        ops ∧
      (∀ op ∈ ops, op.isRename = false) ∧
      (∀ op ∈ ops, op.isHashCheck = false) := by
  by_cases hs : status = 200
  · refine ⟨[FsOp.makeDir (dirOf (documentDirectory ++ mp)),
             FsOp.downloadTo (buildUrl dev file.path)
               (documentDirectory ++ mp),
             FsOp.getInfo (documentDirectory ++ mp)], ?_, ?_, ?_, ?_⟩
    · simp [downloadAndMapFileTrace, h, hs]
    · simp
    · intro op hop
      fin_cases hop <;> rfl
    · intro op hop
      fin_cases hop <;> rfl
  · refine ⟨[FsOp.makeDir (dirOf (documentDirectory ++ mp)),
             FsOp.downloadTo (buildUrl dev file.path)
               (documentDirectory ++ mp)], ?_, ?_, ?_, ?_⟩
    · simp [downloadAndMapFileTrace, h, hs]
    · simp
    · intro op hop
      fin_cases hop <;> rfl
    · intro op hop
      fin_cases hop <;> rfl

/-- Witness for the C3 theorem at a concrete words file. -/
theorem downloadAndMapFile_trace_no_rename_witness :
    ∃ ops, downloadAndMapFileTrace true 404
        ⟨"languages/zh/A1/batch002/audio/words/w_011.mp3", none, none⟩
        "batch01" = some ops ∧
      FsOp.downloadTo
          (buildUrl true "languages/zh/A1/batch002/audio/words/w_011.mp3")
          (documentDirectory ++ "words/zh/w_011.mp3") ∈ ops ∧
      (∀ op ∈ ops, op.isRename = false) ∧
      (∀ op ∈ ops, op.isHashCheck = false) :=
  downloadAndMapFile_trace_no_rename true 404
    ⟨"languages/zh/A1/batch002/audio/words/w_011.mp3", none, none⟩
    "batch01" "words/zh/w_011.mp3" (by decide)

/-! ## Claim C4 -/

/-- C4 counterexample: with a concrete digest function and a mismatching
expected checksum, `downloadFile` performs exactly one transfer and throws —
the mismatch does not trigger any re-fetch, because the retry budget of
`fetchWithRetry` wraps only manifest fetches, never `downloadFile`. -/
theorem checksum_mismatch_single_fetch :
    (downloadFile (fun _ => "deadbeef") "bytes" "url" "dir/f.mp3"
        (some "0000")).2 = false ∧
    fetchCount (downloadFile (fun _ => "deadbeef") "bytes" "url" "dir/f.mp3"
        (some "0000")).1 = 1 := by
  decide

/-- C4 (amended): for every digest function, a checksum mismatch makes
`downloadFile` fail after exactly one transfer (no re-fetch, no retry
budget), and the failed file propagates: a language pack containing any
failed file result is not reported successful, so the batch is never marked
downloaded through this path. -/
theorem downloadFile_no_refetch_on_mismatch (hash : String → String)
    (fetched remoteUrl localPath s : String) (h : hash fetched ≠ s) :
    (downloadFile hash fetched remoteUrl localPath (some s)).2 = false ∧
    fetchCount
        (downloadFile hash fetched remoteUrl localPath (some s)).1 = 1 ∧
    (∀ results : List Bool, false ∈ results →
        downloadLanguagePackOk results = false) := by
  have hbeq : (hash fetched == s) = false := by
    rw [beq_eq_false_iff_ne]
    exact h
  refine ⟨?_, ?_, ?_⟩
  · simp [downloadFile, hbeq]
  · simp [downloadFile, hbeq, fetchCount, FsOp.isDownload, List.filter_cons]
  · intro results hmem
    cases hall : downloadLanguagePackOk results with
    | false => rfl
    | true =>
      exfalso
      have := List.all_eq_true.mp hall false hmem
      simp at this

/-- Witness for the C4 theorem at a concrete digest and checksum. -/
theorem downloadFile_no_refetch_on_mismatch_witness :
    (downloadFile (fun _ => "aa") "content" "u" "p/f.mp3"
        (some "bb")).2 = false ∧
    fetchCount (downloadFile (fun _ => "aa") "content" "u" "p/f.mp3"
        (some "bb")).1 = 1 ∧
    (∀ results : List Bool, false ∈ results →
        downloadLanguagePackOk results = false) :=
  downloadFile_no_refetch_on_mismatch (fun _ => "aa") "content" "u" "p/f.mp3"
    "bb" (by decide)

/-! ## Claim C5 -/

theorem fetchWithRetryRun_cons_false (base i : Nat) (r : Bool)
    (rs : List Bool) :
    fetchWithRetryRun base i (false :: r :: rs) =
      { delays := base * (i + 1) ::
          (fetchWithRetryRun base (i + 1) (r :: rs)).delays,
        attemptsMade :=
          (fetchWithRetryRun base (i + 1) (r :: rs)).attemptsMade + 1,
        ok := (fetchWithRetryRun base (i + 1) (r :: rs)).ok } := rfl

theorem fetchWithRetryRun_true (base i : Nat) (rest : List Bool) :
    fetchWithRetryRun base i (true :: rest) =
      { delays := [], attemptsMade := 1, ok := true } := by
  cases rest <;> rfl

theorem fetchWithRetryRun_false_nil (base i : Nat) :
    fetchWithRetryRun base i [false] =
      { delays := [], attemptsMade := 1, ok := false } := rfl

theorem fetchWithRetryRun_attempts_le (base : Nat) :
    ∀ (xs : List Bool) (i : Nat),
      (fetchWithRetryRun base i xs).attemptsMade ≤ xs.length := by
  intro xs
  induction xs with
  | nil => intro i; simp [fetchWithRetryRun]
  | cons ok rest ih =>
    intro i
    cases ok with
    | true =>
      rw [fetchWithRetryRun_true]
      simp
    | false =>
      cases rest with
      | nil =>
        rw [fetchWithRetryRun_false_nil]
        simp
      | cons r rs =>
        have h := ih (i + 1)
        rw [fetchWithRetryRun_cons_false]
        simpa using Nat.succ_le_succ h

theorem fetchWithRetryRun_delays_linear (base : Nat) :
    ∀ (n i : Nat),
      (fetchWithRetryRun base i (List.replicate (n + 1) false)).delays =
        (List.range n).map (fun k => base * (i + 1 + k)) := by
  intro n
  induction n with
  | zero => intro i; rfl
  | succ n ih =>
    intro i
    have hrep : List.replicate (n + 1 + 1) false =
        false :: List.replicate (n + 1) false := by
      simp [List.replicate_succ]
    have hrep1 : List.replicate (n + 1) false =
        false :: List.replicate n false := by
      simp [List.replicate_succ]
    rw [hrep, hrep1, fetchWithRetryRun_cons_false]
    show base * (i + 1) ::
        (fetchWithRetryRun base (i + 1)
          (false :: List.replicate n false)).delays = _
    rw [← hrep1, ih (i + 1)]
    have htail :
        List.map ((fun k => base * (i + 1 + k)) ∘ Nat.succ)
            (List.range n) =
          List.map (fun k => base * (i + 1 + 1 + k)) (List.range n) := by
      apply List.map_congr_left
      intro a _
      simp only [Function.comp_apply, Nat.succ_eq_add_one]
      ring_nf
    rw [List.range_succ_eq_map, List.map_cons, List.map_map, htail]

/-- C5 counterexample: the waits of `fetchWithRetry` grow linearly
(`RETRY_DELAY * (i + 1)`), not exponentially. A run of 4 failing attempts
waits 1000, 2000, 3000 ms — not the 1000, 2000, 4000 ms that `base × 2^n`
prescribes — and under the default budget of 3 attempts the two observed
waits are 1000 and 2000 ms, which likewise differ from reading the claim's
`base × 2^n` at attempt numbers 1 and 2. -/
theorem fetchWithRetry_linear_delays :
    (fetchWithRetryCall 4 (List.replicate 4 false)).delays =
      [1000, 2000, 3000] ∧
    (fetchWithRetryCall 4 (List.replicate 4 false)).delays ≠
      (List.range 3).map (fun n => DOWNLOAD_CONFIG.RETRY_DELAY * 2 ^ n) ∧
    (fetchWithRetry (List.replicate 3 false)).delays = [1000, 2000] ∧
    (fetchWithRetry (List.replicate 3 false)).delays ≠
      [DOWNLOAD_CONFIG.RETRY_DELAY * 2 ^ 1,
       DOWNLOAD_CONFIG.RETRY_DELAY * 2 ^ 2] := by
  decide

/-- C5 (amended): `fetchWithRetry` makes at most `RETRY_ATTEMPTS = 3`
attempts under the default budget, and after the k-th failed attempt
(0-based, counting from start index `i`) it waits `base * (i + 1 + k)`
milliseconds — a linearly growing, uncapped delay schedule, which happens to
coincide with a doubling schedule on the first two waits (the only ones the
default budget can produce) but is not exponential backoff. -/
theorem fetchWithRetry_linear_schedule :
    (∀ outcomes : List Bool,
        (fetchWithRetry outcomes).attemptsMade ≤
          DOWNLOAD_CONFIG.RETRY_ATTEMPTS) ∧
    (∀ (base n i : Nat),
        (fetchWithRetryRun base i (List.replicate (n + 1) false)).delays =
          (List.range n).map (fun k => base * (i + 1 + k))) := by
  constructor
  · intro outcomes
    have h := fetchWithRetryRun_attempts_le DOWNLOAD_CONFIG.RETRY_DELAY
      (outcomes.take DOWNLOAD_CONFIG.RETRY_ATTEMPTS) 0
    calc (fetchWithRetry outcomes).attemptsMade
        ≤ (outcomes.take DOWNLOAD_CONFIG.RETRY_ATTEMPTS).length := h
      _ ≤ DOWNLOAD_CONFIG.RETRY_ATTEMPTS := by
          rw [List.length_take]
          exact min_le_left _ _
  · intro base n i
    exact fetchWithRetryRun_delays_linear base n i

/-! ## Claim C6 -/

theorem chunkedAux_mem_length_le {α : Type} (w : Nat) :
    ∀ (fuel : Nat) (xs : List α) (c : List α),
      c ∈ chunkedAux w fuel xs → c.length ≤ w := by
  intro fuel
  induction fuel with
  | zero => intro xs c h; simp [chunkedAux] at h
  | succ fuel ih =>
    intro xs c h
    cases xs with
    | nil => simp [chunkedAux] at h
    | cons x xs =>
      by_cases hw : w = 0
      · simp [chunkedAux, hw] at h
      · simp only [chunkedAux, if_neg hw, List.mem_cons] at h
        rcases h with h | h
        · subst h
          exact List.length_take_le _ _
        · exact ih _ c h

theorem foldr_max_le (w : Nat) :
    ∀ l : List Nat, (∀ a ∈ l, a ≤ w) → l.foldr max 0 ≤ w := by
  intro l
  induction l with
  | nil => intro _; simp
  | cons a l ih =>
    intro h
    simp only [List.foldr_cons]
    exact max_le (h a (by simp))
      (ih fun b hb => h b (List.mem_cons_of_mem _ hb))

/-- C6: during a chunked batch run over any file list, the number of
simultaneously in-flight single-file downloads never exceeds the worker
limit `MAX_CONCURRENT_DOWNLOADS = 3`: each `Promise.allSettled` group is
awaited before the next slice starts, so the in-flight set at any instant is
contained in the current chunk, whose size is at most the limit. -/
theorem scheduler_respects_worker_limit (files : List FileEntry) :
    maxInFlight MAX_CONCURRENT_DOWNLOADS files ≤ MAX_CONCURRENT_DOWNLOADS := by
  apply foldr_max_le
  intro a ha
  rcases List.mem_map.mp ha with ⟨c, hc, rfl⟩
  exact chunkedAux_mem_length_le _ _ _ c hc

/-! ## Claim C7 -/

theorem csvRequestsAux_skip (lang diff : String) :
    ∀ (names : List String) (st : DownloaderState),
      (∀ n ∈ names,
          st.downloadedCSVs.contains (lang ++ "_" ++ diff ++ "_" ++ n) =
            true) →
      csvRequestsAux lang diff names st = ([], st) := by
  intro names
  induction names with
  | nil => intro st _; rfl
  | cons n ns ih =>
    intro st h
    have hn := h n (by simp)
    simp only [csvRequestsAux, hn, if_true]
    exact ih st (fun m hm => h m (List.mem_cons_of_mem _ hm))

theorem processBatch_skip (server : Server) (lang diff ct batch : String)
    (st : DownloaderState)
    (h : st.downloadedBatches.contains
        (lang ++ "_" ++ diff ++ "_" ++ ct ++ "_" ++ batch) = true) :
    processBatch server lang diff ct batch st = ([], st) := by
  have hmem : (lang ++ "_" ++ diff ++ "_" ++ ct ++ "_" ++ batch) ∈
      st.downloadedBatches := (contains_true_iff _ _).mp h
  simp [processBatch, hmem]

theorem processBatches_skip (server : Server) (lang diff ct : String) :
    ∀ (bs : List String) (st : DownloaderState),
      (∀ b ∈ bs,
          st.downloadedBatches.contains
            (lang ++ "_" ++ diff ++ "_" ++ ct ++ "_" ++ b) = true) →
      processBatches server lang diff ct bs st = ([], st) := by
  intro bs
  induction bs with
  | nil => intro st _; rfl
  | cons b bs ih =>
    intro st h
    have h1 := processBatch_skip server lang diff ct b st (h b (by simp))
    simp only [processBatches, h1]
    rw [ih st (fun x hx => h x (List.mem_cons_of_mem _ hx))]
    rfl

theorem processContentTypes_skip (server : Server) (lang diff : String)
    (dinfo : DifficultyInfo) :
    ∀ (cts : List String) (st : DownloaderState),
      (∀ ct ∈ cts, ∀ b ∈ batchesOf dinfo ct,
          st.downloadedBatches.contains
            (lang ++ "_" ++ diff ++ "_" ++ ct ++ "_" ++ b) = true) →
      processContentTypes server lang diff dinfo cts st = ([], st) := by
  intro cts
  induction cts with
  | nil => intro st _; rfl
  | cons ct cts ih =>
    intro st h
    cases hct : contentTypeInfo dinfo ct with
    | none =>
      simp only [processContentTypes, hct]
      exact ih st (fun c hc => h c (List.mem_cons_of_mem _ hc))
    | some cti =>
      have heq : batchesOf dinfo ct = cti.batches := by
        simp [batchesOf, hct]
      have hb : ∀ b ∈ cti.batches,
          st.downloadedBatches.contains
            (lang ++ "_" ++ diff ++ "_" ++ ct ++ "_" ++ b) = true := by
        intro b hbmem
        refine h ct (by simp) b ?_
        rw [heq]
        exact hbmem
      simp only [processContentTypes, hct]
      rw [processBatches_skip server lang diff ct cti.batches st hb]
      rw [ih st (fun c hc => h c (List.mem_cons_of_mem _ hc))]
      rfl

/-- C7 counterexample: a key recorded as complete in the durable store does
not prevent network requests. The skip check of
`downloadContentForLanguage` consults only the session-local
`downloader.downloadedBatches` set, so with a fresh downloader (a new app
session), a run for a key the store records as downloaded re-issues the
root-manifest, CSV, language-manifest, batch-manifest and file requests. -/
theorem fresh_session_refetches_recorded_key :
    (markBatchDownloaded "en_A1_sentences_batch001"
        initialStore).downloadedBatches.contains
        "en_A1_sentences_batch001" = true ∧
    (syncLang serverC7 initialDownloader "en" "A1").1 ≠ [] := by
  decide

/-- C7 (amended): the zero-request guarantee holds for the session caches,
not the durable store: when the root manifest and the language manifest are
cached in the downloader, every CSV key is in its `downloadedCSVs` set, and
every batch listed for the difficulty is in its session-local
`downloadedBatches` set (the state a fully successful run leaves behind),
re-running the synchronization issues no network request — the skip check
precedes the batch-manifest fetch. -/
theorem warm_session_zero_requests (server : Server) (st : DownloaderState)
    (lang diff : String) (rm : RootManifest) (lm : LanguageManifest)
    (dinfo : DifficultyInfo)
    (h1 : st.rootManifest = some rm)
    (h2 : st.languageManifests.lookup lang = some lm)
    (h3 : ∀ n ∈ csvNames,
        st.downloadedCSVs.contains (lang ++ "_" ++ diff ++ "_" ++ n) = true)
    (h4 : lm.difficulties.lookup diff = some dinfo)
    (h5 : ∀ ct ∈ contentTypes, ∀ b ∈ batchesOf dinfo ct,
        st.downloadedBatches.contains
          (lang ++ "_" ++ diff ++ "_" ++ ct ++ "_" ++ b) = true) :
    (syncLang server st lang diff).1 = [] := by
  have hcsv : downloadCSVFiles lang diff st = ([], st) :=
    csvRequestsAux_skip lang diff csvNames st h3
  have hpct : processContentTypes server lang diff dinfo contentTypes st =
      ([], st) :=
    processContentTypes_skip server lang diff dinfo contentTypes st h5
  simp only [syncLang, h1]
  cases hf : rm.languages.find? (fun l => l.code == lang) with
  | none => rfl
  | some info =>
    by_cases hd : info.difficulties.contains diff
    · simp only [if_pos hd, downloadCSVFiles] at *
      simp only [hcsv, h2, processAfterManifest, h4, hpct]
      rfl
    · simp only [if_neg hd]

/-- Witness for the C7 theorem: the warm state left by a successful run of
`serverC7` yields an empty request list. -/
theorem warm_session_zero_requests_witness :
    (syncLang serverC7 warmDownloader "en" "A1").1 = [] :=
  warm_session_zero_requests serverC7 warmDownloader "en" "A1"
    serverC7.root lmC7 dinfoC7 rfl (by decide) (by decide) (by decide)
    (by decide)

/-! ## Claim C8 -/

/-- C8 counterexample: in the legacy `downloadBatch`, an empty aggregated
file list does not yield a Complete record with progress 100 — the code
throws `No files found in any manifest` before any download, leaves the
batch unmarked, and records progress 0. -/
theorem downloadBatch_empty_files_fails :
    downloadBatch [] = BatchOutcome.failed ∧
    (downloadBatchStore [] "batch01" initialStore).downloadedBatches = [] ∧
    (downloadBatchStore [] "batch01"
        initialStore).downloadProgress.lookup "batch01" = some 0 := by
  decide

/-- C8 (amended): in `downloadContentForLanguage`, a batch whose manifest
lists no files performs no file fetch (only the batch-manifest request) and
is immediately recorded as downloaded, while the legacy `downloadBatch`
treats an empty aggregated file list as a failure (no Complete record, no
progress 100). -/
theorem empty_batch_no_file_fetch (server : Server)
    (lang diff ct batch : String) (st : DownloaderState) (bm : BatchManifest)
    (hm : server.batchManifests.lookup
        (diff ++ "_" ++ ct ++ "_" ++ lang ++ "_" ++ batch) = some bm)
    (hempty : bm.files = [])
    (hnew : st.downloadedBatches.contains
        (lang ++ "_" ++ diff ++ "_" ++ ct ++ "_" ++ batch) = false) :
    (processBatch server lang diff ct batch st).1.all
        (fun r => !r.isFile) = true ∧
    (processBatch server lang diff ct batch st).2.downloadedBatches.contains
        (lang ++ "_" ++ diff ++ "_" ++ ct ++ "_" ++ batch) = true ∧
    downloadBatch [] = BatchOutcome.failed := by
  have hnot : (lang ++ "_" ++ diff ++ "_" ++ ct ++ "_" ++ batch) ∉
      st.downloadedBatches := by
    intro hmem
    rw [(contains_true_iff _ _).mpr hmem] at hnew
    cases hnew
  refine ⟨?_, ?_, rfl⟩
  · simp [processBatch, hnot, hm, hempty, Request.isFile]
  · simp only [processBatch, hm]
    rw [if_neg (by simpa using hnot)]
    rw [contains_true_iff]
    exact List.mem_append_right _ (List.mem_singleton.mpr rfl)

/-- Witness for the C8 theorem: the empty-files words batch of `serverC8`. -/
theorem empty_batch_no_file_fetch_witness :
    (processBatch serverC8 "en" "A1" "words" "batch001"
        initialDownloader).1.all (fun r => !r.isFile) = true ∧
    (processBatch serverC8 "en" "A1" "words" "batch001"
        initialDownloader).2.downloadedBatches.contains
        ("en" ++ "_" ++ "A1" ++ "_" ++ "words" ++ "_" ++ "batch001") =
      true ∧
    downloadBatch [] = BatchOutcome.failed :=
  empty_batch_no_file_fetch serverC8 "en" "A1" "words" "batch001"
    initialDownloader { files := [] } (by decide) rfl (by decide)

/-! ## Claim C9 -/

/-- Evaluation of the path mapper on the example documented in the source:
`languages/en/B1/batch001/audio/sentences/sent_501.mp3` maps to
`sentences/batch01/sent_501/B1/en.mp3`. -/
theorem mapFileToAppStructure_sentences_example :
    mapFileToAppStructure
      ⟨"languages/en/B1/batch001/audio/sentences/sent_501.mp3", none, none⟩
      "batch01" = some "sentences/batch01/sent_501/B1/en.mp3" := by
  decide

/-- C9: `mapFileToAppStructure` is a pure function whose output depends only
on the `path` field of its file argument (it reads no other field, none of
the mutable session state, and not even its `batch` parameter), so calling
it twice with identical inputs yields identical path strings. -/
theorem mapFileToAppStructure_depends_only_on_path (f g : FileEntry)
    (b c : String) (h : f.path = g.path) :
    mapFileToAppStructure f b = mapFileToAppStructure g c := by
  simp only [mapFileToAppStructure, h]

/-- Witness for the C9 theorem: two entries sharing a path but differing in
every other field (and paired with different `batch` arguments) map
identically. -/
theorem mapFileToAppStructure_depends_only_on_path_witness :
    mapFileToAppStructure
        ⟨"languages/en/B1/batch001/audio/sentences/sent_501.mp3", some 100,
         none⟩ "batch01" =
      mapFileToAppStructure
        ⟨"languages/en/B1/batch001/audio/sentences/sent_501.mp3", some 200,
         some "abcd"⟩ "batch02" :=
  mapFileToAppStructure_depends_only_on_path _ _ "batch01" "batch02" rfl

end HearLang
